import Mathlib

/-!
Verification development for the simple-web-proxy repository.

The definitions below are a shallow embedding of the proxy server code
(src/server.js and its variants under src/unnamed/).  Strings are modelled
as lists of characters; the external facilities the code calls
(WHATWG URL parsing, ipaddr.js address classification, tough-cookie jars,
DNS lookup, fetch) are modelled as executable Lean functions over the
inputs the proxy feeds them, or taken as parameters of an environment
record where they are genuinely external (DNS answers, upstream responses).
-/

abbrev Str := List Char

def chars (s : String) : Str := s.data

/-- ASCII lower-casing, as JavaScript toLowerCase behaves on ASCII data. -/
def lcCh (c : Char) : Char :=
  if 'A' ≤ c && c ≤ 'Z' then Char.ofNat (c.toNat + 32) else c

def lowerStr (s : Str) : Str := s.map lcCh

def strStarts (p s : Str) : Bool := List.isPrefixOf p s

def isDigitCh (c : Char) : Bool := '0' ≤ c && c ≤ '9'

def isAlphaCh (c : Char) : Bool := ('a' ≤ c && c ≤ 'z') || ('A' ≤ c && c ≤ 'Z')

def splitOnCh (sep : Char) : Str → List Str
  | [] => [[]]
  | c :: cs =>
    let r := splitOnCh sep cs
    if c = sep then [] :: r
    else
      match r with
      | [] => [[c]]
      | h :: t => (c :: h) :: t

def allDigits : Str → Bool
  | [] => true
  | c :: r => isDigitCh c && allDigits r

def digitsVal (s : Str) : Nat :=
  s.foldl (fun acc c => 10 * acc + (c.toNat - 48)) 0

/-- JavaScript Number() on the strings produced by splitting an address on
dots: the empty string is 0, a decimal digit string is its value, anything
else is NaN (modelled as none, so that every comparison with it is false). -/
def jsNumber (s : Str) : Option Nat :=
  if s = [] then some 0
  else if allDigits s then some (digitsVal s) else none

/-- src/server.js isPrivate172: `parts[0] === 172 && parts[1] >= 16 && parts[1] <= 31`
after `addr.split(".").map(Number)`. -/
def isPrivate172 (addr : Str) : Bool :=
  let parts := splitOnCh '.' addr
  (match parts.head? with
   | some p0 => decide (jsNumber p0 = some 172)
   | none => false)
  &&
  (match (parts.drop 1).head? with
   | some p1 =>
     match jsNumber p1 with
     | some n => decide (16 ≤ n) && decide (n ≤ 31)
     | none => false
   | none => false)

inductive IpAddr where
  | v4 (a b c d : Nat)
  | v6 (g : List Nat)
  deriving DecidableEq

def isHexDigit (c : Char) : Bool :=
  isDigitCh c || ('a' ≤ c && c ≤ 'f') || ('A' ≤ c && c ≤ 'F')

def allHexDigits : Str → Bool
  | [] => true
  | c :: r => isHexDigit c && allHexDigits r

def hexVal (c : Char) : Nat :=
  if isDigitCh c then c.toNat - 48
  else if 'a' ≤ c && c ≤ 'f' then c.toNat - 87
  else c.toNat - 55

def hexDigitsVal (s : Str) : Nat :=
  s.foldl (fun acc c => 16 * acc + hexVal c) 0

/-- One IPv6 hextet: one to four hex digits. -/
def hexGroup (s : Str) : Option Nat :=
  if s = [] then none
  else if s.length ≤ 4 && allHexDigits s then some (hexDigitsVal s) else none

def parseGroups : List Str → Option (List Nat)
  | [] => some []
  | s :: rest =>
    match hexGroup s, parseGroups rest with
    | some n, some ns => some (n :: ns)
    | _, _ => none

def splitOnDoubleColon : Str → Option (Str × Str)
  | [] => none
  | ':' :: ':' :: rest => some ([], rest)
  | c :: rest => (splitOnDoubleColon rest).map (fun p => (c :: p.1, p.2))

/-- One IPv4 octet in canonical decimal form (value 0..255, no leading zero). -/
def octet (s : Str) : Option Nat :=
  if s = [] then none
  else if !allDigits s then none
  else if decide (1 < s.length) && decide (s.head? = some '0') then none
  else if digitsVal s ≤ 255 then some (digitsVal s) else none

def parseIPv4 (s : Str) : Option IpAddr :=
  match splitOnCh '.' s with
  | [a, b, c, d] =>
    match octet a, octet b, octet c, octet d with
    | some wa, some wb, some wc, some wd => some (IpAddr.v4 wa wb wc wd)
    | _, _, _, _ => none
  | _ => none

def parseIPv6 (s : Str) : Option IpAddr :=
  match splitOnDoubleColon s with
  | some (l, r) =>
    if (splitOnDoubleColon r).isSome then none
    else
      match (if l = [] then some [] else parseGroups (splitOnCh ':' l)),
            (if r = [] then some [] else parseGroups (splitOnCh ':' r)) with
      | some lg, some rg =>
        if lg.length + rg.length ≤ 7 then
          some (IpAddr.v6 (lg ++ List.replicate (8 - lg.length - rg.length) 0 ++ rg))
        else none
      | _, _ => none
  | none =>
    match parseGroups (splitOnCh ':' s) with
    | some g => if g.length = 8 then some g |>.map IpAddr.v6 else none
    | none => none

/-- Modelled behavior of the external ipaddr.js parse function on canonical
address strings: dotted-quad decimal IPv4 and RFC 5952 style IPv6 (with at
most one double colon).  Exotic forms ipaddr.js additionally accepts
(octal or hexadecimal IPv4 parts, IPv4 embedded in IPv6) are outside the
model and map to none, i.e. a parse failure. -/
def ipaddrParse (s : Str) : Option IpAddr :=
  match parseIPv4 s with
  | some a => some a
  | none => parseIPv6 s

/-- ipaddr.js range() membership in loopback/linkLocal/unspecified for an
IPv4 address: 127.0.0.0/8, 169.254.0.0/16, 0.0.0.0/8. -/
def rangeBlockedV4 (a b : Nat) : Bool :=
  decide (a = 127) || decide (a = 0) || (decide (a = 169) && decide (b = 254))

/-- ipaddr.js range() membership in loopback/linkLocal/uniqueLocal/unspecified
for an IPv6 address given as eight hextets: ::, ::1, fe80::/10, fc00::/7. -/
def rangeBlockedV6 (g : List Nat) : Bool :=
  decide (g = [0, 0, 0, 0, 0, 0, 0, 0]) ||
  decide (g = [0, 0, 0, 0, 0, 0, 0, 1]) ||
  (match g.head? with
   | some g0 => decide (g0 / 64 = 1018) || decide (g0 / 512 = 126)
   | none => false)

/-- src/server.js isPrivateIPv6: parse the address with ipaddr.js and test
whether its range is one of loopback/linkLocal/uniqueLocal/unspecified;
the catch branch turns any parse failure into true. -/
def isPrivateIPv6 (addr : Str) : Bool :=
  match ipaddrParse addr with
  | none => true
  | some (IpAddr.v4 a b _ _) => rangeBlockedV4 a b
  | some (IpAddr.v6 g) => rangeBlockedV6 g

/-- src/server.js isBlockedIP. -/
def isBlockedIP (address : Str) : Bool :=
  strStarts (chars "127.") address ||
  strStarts (chars "10.") address ||
  strStarts (chars "192.168.") address ||
  isPrivate172 address ||
  isPrivateIPv6 address


/-! ## URL model

The proxy calls the WHATWG URL library: `new URL(raw)`, `new URL(ref, base)`
and `.href` / `.hostname` / `.protocol`.  The model below covers the URL
shapes the proxy handles: http/https/ws/wss URLs with a hostname and an
optional path, query and fragment (no userinfo, port or punycode handling),
plus opaque non-special URLs such as javascript: and data: ones. -/

structure Url where
  scheme : Str
  host : Str
  path : Str
  search : Str
  hash : Str
  deriving DecidableEq

inductive JsUrl where
  | web (u : Url)
  | opq (scheme rest : Str)
  deriving DecidableEq

def isSchemeCh (c : Char) : Bool :=
  isAlphaCh c || isDigitCh c || c = '+' || c = '-' || c = '.'

def isHostCh (c : Char) : Bool :=
  isAlphaCh c || isDigitCh c || c = '-' || c = '.' || c = '_'

def takeWhileCh (p : Char → Bool) : Str → Str × Str
  | [] => ([], [])
  | c :: cs =>
    if p c then
      let r := takeWhileCh p cs
      (c :: r.1, r.2)
    else ([], c :: cs)

/-- Split off a leading `scheme:` part, returning the lower-cased scheme and
the remainder after the colon. -/
def splitScheme (s : Str) : Option (Str × Str) :=
  let t := takeWhileCh isSchemeCh s
  match t.1, t.2 with
  | [], _ => none
  | c :: rest0, ':' :: r =>
    if isAlphaCh c then some (lowerStr (c :: rest0), r) else none
  | _, _ => none

/-- Split a path-query-fragment tail into its three pieces; search keeps its
leading question mark and hash its leading hash sign when present. -/
def splitPathQF (r : Str) : Str × Str × Str :=
  let t := takeWhileCh (fun c => !(c = '?') && !(c = '#')) r
  match t.2 with
  | '?' :: r2 =>
    let q := takeWhileCh (fun c => !(c = '#')) r2
    (t.1, '?' :: q.1, q.2)
  | rest => (t.1, [], rest)

def splitOnSlash : Str → List Str
  | [] => [[]]
  | c :: cs =>
    let r := splitOnSlash cs
    if c = '/' then [] :: r
    else
      match r with
      | [] => [[c]]
      | h :: t => (c :: h) :: t

def joinSlash : List Str → Str
  | [] => []
  | [s] => s
  | s :: rest => s ++ '/' :: joinSlash rest

def rdsAux : List Str → List Str → List Str
  | [], acc => acc.reverse
  | s :: rest, acc =>
    if s = chars "." then rdsAux rest acc
    else if s = chars ".." then rdsAux rest acc.tail
    else rdsAux rest (s :: acc)

/-- Dot-segment removal on an absolute path. -/
def removeDots (p : Str) : Str :=
  '/' :: joinSlash (rdsAux (splitOnSlash (p.drop 1)) [])

/-- The directory part of an absolute path: everything up to and including
the last slash. -/
def dirOf (p : Str) : Str :=
  ((p.reverse.dropWhile (fun c => !(c = '/')))).reverse

def defaultPath (p : Str) : Str := if p = [] then ['/'] else p

/-- Parse an authority-plus-tail `//host/path?query#frag` for a special
scheme; fails on an empty or malformed host, as the URL library throws. -/
def parseWeb (scheme : Str) (r : Str) : Option Url :=
  match r with
  | '/' :: '/' :: r2 =>
    let h := takeWhileCh isHostCh r2
    if h.1 = [] then none
    else
      match h.2 with
      | [] => some ⟨scheme, lowerStr h.1, ['/'], [], []⟩
      | c :: _ =>
        if c = '/' || c = '?' || c = '#' then
          let t := splitPathQF h.2
          some ⟨scheme, lowerStr h.1, defaultPath t.1, t.2.1, t.2.2⟩
        else none
  | _ => none

def specialSchemes : List Str :=
  [chars "http", chars "https", chars "ws", chars "wss"]

/-- `new URL(raw)` on an absolute URL string. -/
def parseAbs (s : Str) : Option JsUrl :=
  match splitScheme s with
  | some (sch, rest) =>
    if specialSchemes.contains sch then (parseWeb sch rest).map JsUrl.web
    else some (JsUrl.opq sch rest)
  | none => none

/-- `new URL(ref, base)`: full resolution of a reference against a base URL,
returning none where the library throws. -/
def resolveURL (v : Str) (base : JsUrl) : Option JsUrl :=
  match splitScheme v with
  | some _ => parseAbs v
  | none =>
    match base with
    | JsUrl.opq _ _ => none
    | JsUrl.web b =>
      if strStarts (chars "//") v then (parseWeb b.scheme v).map JsUrl.web
      else if strStarts (chars "/") v then
        let t := splitPathQF v
        some (JsUrl.web ⟨b.scheme, b.host, removeDots (defaultPath t.1), t.2.1, t.2.2⟩)
      else if strStarts (chars "?") v then
        let q := takeWhileCh (fun c => !(c = '#')) (v.drop 1)
        some (JsUrl.web ⟨b.scheme, b.host, b.path, '?' :: q.1, q.2⟩)
      else if strStarts (chars "#") v then
        some (JsUrl.web ⟨b.scheme, b.host, b.path, b.search, v⟩)
      else if v = [] then
        some (JsUrl.web ⟨b.scheme, b.host, b.path, b.search, []⟩)
      else
        let t := splitPathQF v
        some (JsUrl.web ⟨b.scheme, b.host, removeDots (dirOf b.path ++ t.1), t.2.1, t.2.2⟩)

def href : JsUrl → Str
  | JsUrl.web u => u.scheme ++ chars "://" ++ u.host ++ u.path ++ u.search ++ u.hash
  | JsUrl.opq sch rest => sch ++ ':' :: rest

def hostname : JsUrl → Str
  | JsUrl.web u => u.host
  | JsUrl.opq _ _ => []

def protoOf : JsUrl → Str
  | JsUrl.web u => u.scheme ++ [':']
  | JsUrl.opq sch _ => sch ++ [':']

/-! ## encodeURIComponent -/

def hexDigitU (n : Nat) : Char :=
  if n < 10 then Char.ofNat (48 + n) else Char.ofNat (55 + n)

def pctByte (b : Nat) : Str := ['%', hexDigitU (b / 16), hexDigitU (b % 16)]

def utf8Bytes (n : Nat) : List Nat :=
  if n < 128 then [n]
  else if n < 2048 then [192 + n / 64, 128 + n % 64]
  else if n < 65536 then [224 + n / 4096, 128 + (n / 64) % 64, 128 + n % 64]
  else [240 + n / 262144, 128 + (n / 4096) % 64, 128 + (n / 64) % 64, 128 + n % 64]

def isUnreservedCh (c : Char) : Bool :=
  isAlphaCh c || isDigitCh c || c = '-' || c = '_' || c = '.' || c = '!' ||
  c = '~' || c = '*' || c.toNat = 39 || c = '(' || c = ')'

def encChar (c : Char) : Str :=
  if isUnreservedCh c then [c] else ((utf8Bytes c.toNat).map pctByte).flatten

def encodeURIComponent (s : Str) : Str := (s.map encChar).flatten

/-! ## Cookie jars

Model of the tough-cookie jar operations the proxy uses: setCookie of an
already-parsed Set-Cookie value against a URL of the form
`protocol//host/`, and getCookieString for a URL on the same host.  Only
the attributes the isolation claims depend on are modelled (name, value,
optional Domain); path is always the root path in the URLs the proxy
passes, and expiry is out of scope. -/

structure SetCookie where
  name : Str
  value : Str
  domain : Option Str
  deriving DecidableEq

structure StoredCookie where
  name : Str
  value : Str
  domain : Str
  hostOnly : Bool
  deriving DecidableEq

abbrev Jar := List StoredCookie

/-- tough-cookie domain match: equal, or the host ends in a dot followed by
the cookie domain. -/
def domainMatch (host dom : Str) : Bool :=
  decide (host = dom) || List.isSuffixOf ('.' :: dom) host

def upsertCookie (jar : Jar) (c : StoredCookie) : Jar :=
  if jar.any (fun k => k.name = c.name && k.domain = c.domain) then
    jar.map (fun k => if k.name = c.name && k.domain = c.domain then c else k)
  else jar ++ [c]

/-- jar.setCookie(c, url): a cookie with a Domain attribute that does not
match the URL host is rejected; otherwise it is stored (host-only when no
Domain attribute was given). -/
def jarSetCookie (jar : Jar) (urlHost : Str) (c : SetCookie) : Jar :=
  match c.domain with
  | none => upsertCookie jar ⟨c.name, c.value, urlHost, true⟩
  | some d =>
    if domainMatch urlHost d then upsertCookie jar ⟨c.name, c.value, d, false⟩
    else jar

def recordCookies (jar : Jar) (urlHost : Str) (cs : List SetCookie) : Jar :=
  cs.foldl (fun j c => jarSetCookie j urlHost c) jar

def joinSemi : List Str → Str
  | [] => []
  | [s] => s
  | s :: rest => s ++ chars "; " ++ joinSemi rest

/-- jar.getCookieString(url) for a URL on the given host. -/
def getCookieString (jar : Jar) (host : Str) : Str :=
  joinSemi ((jar.filter
    (fun k => if k.hostOnly then decide (host = k.domain) else domainMatch host k.domain)).map
    (fun k => k.name ++ '=' :: k.value))

/-- The LRU cookie cache, keyed by `sid:host` strings; capacity and TTL
eviction are not modelled (they only remove entries). -/
abbrev Store := List (Str × Jar)

def storeGet (st : Store) (k : Str) : Option Jar :=
  (st.find? (fun p => decide (p.1 = k))).map (fun p => p.2)

def storeSet (st : Store) (k : Str) (j : Jar) : Store :=
  if st.any (fun p => p.1 = k) then
    st.map (fun p => if p.1 = k then (k, j) else p)
  else st ++ [(k, j)]

/-! ## Forwarding engine (src/server.js /proxy handler)

The upstream world is an environment: a function from the fetched href
string to the upstream response, and a DNS answer list per hostname. -/

structure Response where
  status : Nat
  location : Option Str
  setCookies : List SetCookie
  contentType : Str
  headers : List (Str × Str)
  deriving DecidableEq

structure Env where
  fetch : Str → Response
  dns : Str → List Str

inductive Err where
  | invalidURL
  | blockedURL
  | parseFail
  | blockedIP
  | tooManyRedirects
  deriving DecidableEq

/-- The find over DNS answers inside src/server.js resolveRedirect:
`results.find(r => !isBlockedIP(r.address))`. -/
def findPublic (addrs : List Str) : Option Str :=
  addrs.find? (fun a => !isBlockedIP a)

/-- src/server.js resolveRedirect: look the hostname up, fail with the
Blocked IP error when no resolved address is non-blocked. -/
def resolveRedirect (env : Env) (u : JsUrl) : Except Err Str :=
  match findPublic (env.dns (hostname u)) with
  | none => Except.error Err.blockedIP
  | some a => Except.ok a

def guardOkB (env : Env) (u : JsUrl) : Bool :=
  (findPublic (env.dns (hostname u))).isSome

/-- src/server.js validateTarget: reject a missing or empty target, reject
javascript:, data: and fragment-only prefixes, then parse as an absolute
URL (the URL constructor throw is a parse failure). -/
def validateTarget (raw : Option Str) : Except Err JsUrl :=
  match raw with
  | none => Except.error Err.invalidURL
  | some s =>
    if s = [] then Except.error Err.invalidURL
    else if strStarts (chars "javascript:") s || strStarts (chars "data:") s ||
            strStarts (chars "#") s then Except.error Err.blockedURL
    else
      match parseAbs s with
      | none => Except.error Err.parseFail
      | some u => Except.ok u

def is3xx (r : Response) : Bool :=
  decide (300 ≤ r.status) && decide (r.status < 400)

deriving instance DecidableEq for Except

structure LoopOut where
  outcome : Except Err Response
  fetched : List JsUrl
  deriving DecidableEq

/-- One iteration of the loop body after the fetch of `u`: either the loop
ends with an outcome (a terminal or break response, a validation error, or
the redirect-count throw) or it continues with the next URL.  In the 3xx
branch the Location is resolved against `base` (`new URL(location, url)`),
the address guard is re-run on the result, and the count check fires
before the next fetch; in the non-3xx branch the count check still fires
before the response is returned, because redirectCount is incremented on
every iteration. -/
def loopNext (env : Env) (base : JsUrl) (u : JsUrl) (count : Nat) :
    Sum (Except Err Response) JsUrl :=
  let r := env.fetch (href u)
  if is3xx r then
    match r.location with
    | none => Sum.inl (Except.ok r)
    | some loc =>
      match resolveURL loc base with
      | none => Sum.inl (Except.error Err.parseFail)
      | some nu =>
        match resolveRedirect env nu with
        | Except.error e => Sum.inl (Except.error e)
        | Except.ok _ =>
          if count + 1 > 5 then Sum.inl (Except.error Err.tooManyRedirects)
          else Sum.inr nu
  else
    if count + 1 > 5 then Sum.inl (Except.error Err.tooManyRedirects)
    else Sum.inl (Except.ok r)

/-- The manual redirect do-while loop of the src/server.js /proxy handler,
iterating loopNext.  The fuel argument only forces termination (the count
check stops the loop after at most six iterations, so any fuel of at
least seven is never exhausted); the fetched list records every URL
passed to fetch, in order. -/
def loopServer (env : Env) (base : JsUrl) : Nat → JsUrl → Nat → LoopOut
  | 0, _, _ => ⟨Except.error Err.tooManyRedirects, []⟩
  | fuel + 1, u, count =>
    match loopNext env base u count with
    | Sum.inl o => ⟨o, [u]⟩
    | Sum.inr nu =>
      let rest := loopServer env base fuel nu (count + 1)
      ⟨rest.outcome, u :: rest.fetched⟩

structure RunOut where
  outcome : Except Err Response
  fetched : List JsUrl
  sentCookie : Option Str
  finalStore : Store
  deriving DecidableEq

/-- The cookie header the handler attaches: the jar under `sid:host`, if
present, rendered by getCookieString. -/
def attachedCookie (st : Store) (sid host : Str) : Option Str :=
  (storeGet st (sid ++ ':' :: host)).map (fun j => getCookieString j host)

/-- One /proxy request in src/server.js: validate the target, run the
address guard on it, read the cookie jar under `sid:host` and attach its
cookie string, run the redirect loop, and on a terminal response record
its Set-Cookie values into the same jar against `protocol//host/` (host
being the hostname of the initial target). -/
def handleProxy (env : Env) (st : Store) (sid : Str) (target : Option Str) : RunOut :=
  match validateTarget target with
  | Except.error e => ⟨Except.error e, [], none, st⟩
  | Except.ok url =>
    match resolveRedirect env url with
    | Except.error e => ⟨Except.error e, [], none, st⟩
    | Except.ok _ =>
      match loopServer env url 7 url 0 with
      | ⟨Except.error e, fs⟩ =>
        ⟨Except.error e, fs, attachedCookie st sid (hostname url), st⟩
      | ⟨Except.ok r, fs⟩ =>
        if r.setCookies.isEmpty then
          ⟨Except.ok r, fs, attachedCookie st sid (hostname url), st⟩
        else
          ⟨Except.ok r, fs, attachedCookie st sid (hostname url),
           storeSet st (sid ++ ':' :: hostname url)
             (recordCookies ((storeGet st (sid ++ ':' :: hostname url)).getD [])
               (hostname url) r.setCookies)⟩

/-- The catch-all error answer of the /proxy handler: status 500 with the
plain text fetch error body. -/
def clientErrorResp (o : Except Err Response) : Option (Nat × Str) :=
  match o with
  | Except.error _ => some (500, chars "fetch error")
  | Except.ok _ => none

/-! ## HTML attribute rewriting

Model of the global regex replace
`html.replace(/(attr1|attr2|...)="([^"]*)"/gi, cb)` used by the rewriters:
a left-to-right scan that at each position tries the attribute
alternatives in order, requires an equals sign and an opening double
quote, takes the value up to the next double quote, and hands the matched
attribute text (case preserved) and the value to the replacement
callback; on no match the character is copied and the scan moves on. -/

/-- Case-insensitive strip of an expected lower-case word, returning the
matched original text and the remainder. -/
def stripCI : Str → Str → Option (Str × Str)
  | [], s => some ([], s)
  | _ :: _, [] => none
  | p :: ps, c :: cs =>
    if lcCh c = p then (stripCI ps cs).map (fun pr => (c :: pr.1, pr.2)) else none

/-- Greedy `[^"]*` followed by the closing double quote: everything up to
the first double quote, failing when there is none. -/
def spanUntilQuote : Str → Option (Str × Str)
  | [] => none
  | c :: cs =>
    if c = '"' then some ([], cs)
    else (spanUntilQuote cs).map (fun p => (c :: p.1, p.2))

/-- Try to match a single attribute alternative `attr="value"` at the
current position. -/
def matchOne (a s : Str) : Option (Str × Str × Str) :=
  match stripCI a s with
  | none => none
  | some (txt, r1) =>
    match r1 with
    | '=' :: '"' :: r2 =>
      match spanUntilQuote r2 with
      | some (v, r3) => some (txt, v, r3)
      | none => none
    | _ => none

/-- Try to match `attr="value"` at the current position, attempting the
attribute alternatives in order as the regex engine does. -/
def matchAt (attrs : List Str) (s : Str) : Option (Str × Str × Str) :=
  match attrs with
  | [] => none
  | a :: rest =>
    match matchOne a s with
    | some m => some m
    | none => matchAt rest s

/-- The left-to-right global replace scan; the fuel starts at the input
length and each step consumes at least one character. -/
def rewriteCore (attrs : List Str) (repl : Str → Str → Str) : Nat → Str → Str
  | _, [] => []
  | 0, s => s
  | fuel + 1, c :: cs =>
    match matchAt attrs (c :: cs) with
    | some (txt, v, rest) => repl txt v ++ rewriteCore attrs repl fuel rest
    | none => c :: rewriteCore attrs repl fuel cs

def attrsServer : List Str := [chars "href", chars "src", chars "action"]

def attrsP0 : List Str :=
  [chars "href", chars "src", chars "action", chars "data-src", chars "data-original"]

/-- The src/server.js replacement callback: resolve the value against the
validated target URL, emit a /proxy link with the absolute href
percent-encoded, and return the original matched text when the URL
constructor throws. -/
def replServer (base : JsUrl) (txt v : Str) : Str :=
  match resolveURL v base with
  | some u => txt ++ chars "=\"/proxy?url=" ++ encodeURIComponent (href u) ++ ['"']
  | none => txt ++ '=' :: '"' :: v ++ ['"']

def rewriteAttrsServer (base : JsUrl) (s : Str) : Str :=
  rewriteCore attrsServer (replServer base) s.length s

/-- The resolveUrl helper of the src/unnamed/part_000 variant: null for an
empty value and for javascript:, data: and fragment-only values, plain
string concatenation for protocol-relative values, otherwise the resolved
absolute href (null when the URL constructor throws). -/
def resolveUrlP0 (raw : Str) (base : JsUrl) : Option Str :=
  if raw = [] then none
  else if strStarts (chars "javascript:") raw || strStarts (chars "data:") raw ||
          strStarts (chars "#") raw then none
  else if strStarts (chars "//") raw then some (protoOf base ++ raw)
  else (resolveURL raw base).map href

/-- The replacement callback of the part_000 variant attribute pass:
rewrite through resolveUrl, keeping the original matched text whenever
resolveUrl yields null. -/
def replP0 (base : JsUrl) (txt v : Str) : Str :=
  match resolveUrlP0 v base with
  | some abs => txt ++ chars "=\"/proxy?url=" ++ encodeURIComponent abs ++ ['"']
  | none => txt ++ '=' :: '"' :: v ++ ['"']

def rewriteAttrsP0 (base : JsUrl) (s : Str) : Str :=
  rewriteCore attrsP0 (replP0 base) s.length s

def noQuote : Str → Bool
  | [] => true
  | c :: r => !(c = '"' : Bool) && noQuote r

/-- An `attr="value"` occurrence as a string. -/
def attrOcc (a v : Str) : Str := a ++ '=' :: '"' :: v ++ ['"']

/-! ## Response header forwarding -/

/-- The src/server.js pass-through path forwards every upstream header
except content-security-policy. -/
def copyHeadersServer (hs : List (Str × Str)) : List (Str × Str) :=
  hs.filter (fun kv => !(lowerStr kv.1 = chars "content-security-policy" : Bool))

/-- The BLOCK_HEADERS list of the src/unnamed/part_000 main variant. -/
def blockHeadersP0 : List Str :=
  [chars "content-security-policy",
   chars "content-security-policy-report-only",
   chars "cross-origin-opener-policy",
   chars "cross-origin-embedder-policy",
   chars "cross-origin-resource-policy"]

def copyHeadersP0 (hs : List (Str × Str)) : List (Str × Str) :=
  hs.filter (fun kv => !(decide (lowerStr kv.1 ∈ blockHeadersP0)))

/-! ## WebSocket relay wiring (src/server.js /ws handler)

The handler wiring is modelled as the list of actions each socket event
triggers; src/server.js installs handlers for upstream message, upstream
error, client error and client close, and none for client message or
upstream close. -/

inductive WsEvent where
  | clientMsg (d : Str)
  | upMsg (d : Str)
  | clientClose (code : Nat)
  | upClose (code : Nat)
  | clientErr
  | upErr
  deriving DecidableEq

inductive WsAction where
  | sendClient (d : Str)
  | sendUp (d : Str)
  | closeClient (code : Option Nat)
  | closeUp (code : Option Nat)
  deriving DecidableEq

def wsActionsServer : WsEvent → List WsAction
  | WsEvent.upMsg d => [WsAction.sendClient d]
  | WsEvent.upErr => [WsAction.closeClient (some 1002)]
  | WsEvent.clientErr => [WsAction.closeUp (some 1002)]
  | WsEvent.clientClose _ => [WsAction.closeUp (some 1002)]
  | WsEvent.clientMsg _ => []
  | WsEvent.upClose _ => []

/-- The wiring of the src/unnamed/part_003 and part_000 variants: both
message directions are relayed, and a close on either side closes the
other without a code. -/
def wsActionsP3 : WsEvent → List WsAction
  | WsEvent.upMsg d => [WsAction.sendClient d]
  | WsEvent.clientMsg d => [WsAction.sendUp d]
  | WsEvent.upClose _ => [WsAction.closeClient none]
  | WsEvent.clientClose _ => [WsAction.closeUp none]
  | WsEvent.clientErr => []
  | WsEvent.upErr => []

def wsRun (h : WsEvent → List WsAction) : List WsEvent → List WsAction
  | [] => []
  | e :: rest => h e ++ wsRun h rest

def sentUpFrames (as : List WsAction) : List Str :=
  as.filterMap (fun a => match a with | WsAction.sendUp d => some d | _ => none)

def sentClientFrames (as : List WsAction) : List Str :=
  as.filterMap (fun a => match a with | WsAction.sendClient d => some d | _ => none)

def clientMsgPayloads (evs : List WsEvent) : List Str :=
  evs.filterMap (fun e => match e with | WsEvent.clientMsg d => some d | _ => none)

def upMsgPayloads (evs : List WsEvent) : List Str :=
  evs.filterMap (fun e => match e with | WsEvent.upMsg d => some d | _ => none)

/-! ## Redirect chain description and concrete test environments -/

/-- One redirect step as the loop takes it: the response for `u` is 3xx,
its Location resolves against `base` to `v`, and `v` passes the address
guard. -/
def chainStepB (env : Env) (base u v : JsUrl) : Bool :=
  is3xx (env.fetch (href u)) &&
  (match (env.fetch (href u)).location with
   | some loc => decide (resolveURL loc base = some v) && guardOkB env v
   | none => false)

/-- A redirect chain from `u` through `hops` whose responses are the loop
steps above and whose last response is terminal (non-3xx). -/
def followsChainB (env : Env) (base : JsUrl) : JsUrl → List JsUrl → Bool
  | u, [] => !is3xx (env.fetch (href u))
  | u, v :: rest => chainStepB env base u v && followsChainB env base v rest

def lastD : JsUrl → List JsUrl → JsUrl
  | u, [] => u
  | _, v :: rest => lastD v rest

def resp200 : Response := ⟨200, none, [], chars "text/plain", []⟩

def redirTo (loc : Str) : Response := ⟨302, some loc, [], [], []⟩

def uA0 : JsUrl := JsUrl.web ⟨chars "https", chars "a.example", chars "/start", [], []⟩

def uB1 : JsUrl := JsUrl.web ⟨chars "https", chars "b.example", chars "/dir/page", [], []⟩

def uAx : JsUrl := JsUrl.web ⟨chars "https", chars "a.example", chars "/x", [], []⟩

def uBdx : JsUrl := JsUrl.web ⟨chars "https", chars "b.example", chars "/dir/x", [], []⟩

/-- Upstream world for the redirect-base counterexample: a.example/start
redirects to b.example/dir/page, which redirects to the relative
location x; both hostnames resolve publicly. -/
def envC1 : Env :=
  { fetch := fun s =>
      if s = chars "https://a.example/start" then redirTo (chars "https://b.example/dir/page")
      else if s = chars "https://b.example/dir/page" then redirTo (chars "x")
      else resp200,
    dns := fun h =>
      if h = chars "a.example" then [chars "93.184.216.34"]
      else if h = chars "b.example" then [chars "93.184.216.35"]
      else [] }

def aU (p : String) : JsUrl := JsUrl.web ⟨chars "https", chars "a.example", chars p, [], []⟩

/-- Upstream world with a five-redirect public chain s0 → s1 → ... → s5
whose final hop answers 200. -/
def envC4 : Env :=
  { fetch := fun s =>
      if s = chars "https://a.example/s0" then redirTo (chars "https://a.example/s1")
      else if s = chars "https://a.example/s1" then redirTo (chars "https://a.example/s2")
      else if s = chars "https://a.example/s2" then redirTo (chars "https://a.example/s3")
      else if s = chars "https://a.example/s3" then redirTo (chars "https://a.example/s4")
      else if s = chars "https://a.example/s4" then redirTo (chars "https://a.example/s5")
      else resp200,
    dns := fun h => if h = chars "a.example" then [chars "93.184.216.34"] else [] }

/-- Upstream world for the cookie claims: a.example redirects to
c.example, and only the c.example response carries a Set-Cookie. -/
def envC5 : Env :=
  { fetch := fun s =>
      if s = chars "https://a.example/" then redirTo (chars "https://c.example/")
      else if s = chars "https://c.example/" then
        ⟨200, none, [⟨chars "id", chars "1", none⟩], chars "text/plain", []⟩
      else resp200,
    dns := fun h =>
      if h = chars "a.example" then [chars "93.184.216.34"]
      else if h = chars "c.example" then [chars "93.184.216.35"]
      else [] }

/-- Upstream world where a validated public target redirects to a host all
of whose addresses are blocked. -/
def envW : Env :=
  { fetch := fun s =>
      if s = chars "https://a.example/" then redirTo (chars "http://internal.local/x")
      else resp200,
    dns := fun h =>
      if h = chars "a.example" then [chars "93.184.216.34"]
      else if h = chars "internal.local" then [chars "10.0.0.5"]
      else [] }

/-- DNS world with one all-blocked host and one public host; every fetch
answers 200. -/
def envB : Env :=
  { fetch := fun _ => resp200,
    dns := fun h =>
      if h = chars "internal.test" then [chars "10.0.0.5"]
      else if h = chars "pub.test" then [chars "8.8.8.8"]
      else [] }

def uInternal : JsUrl := JsUrl.web ⟨chars "http", chars "internal.test", chars "/", [], []⟩

def uPub : JsUrl := JsUrl.web ⟨chars "http", chars "pub.test", chars "/", [], []⟩

def envEmpty : Env := { fetch := fun _ => resp200, dns := fun _ => [] }

def baseE : JsUrl := JsUrl.web ⟨chars "https", chars "e.com", chars "/p", [], []⟩

/-- A single quote character. -/
def sqC : Char := Char.ofNat 39

/-- A single-quoted href attribute whose value contains a double-quoted
src pattern. -/
def c10input : Str := chars "href=" ++ [sqC] ++ chars "src=\"v\"" ++ [sqC]

/-! ## Supporting lemmas -/

theorem resolveRedirect_ok_guard (env : Env) (u : JsUrl) (a : Str)
    (h : resolveRedirect env u = Except.ok a) : guardOkB env u = true := by
  unfold resolveRedirect at h
  unfold guardOkB
  cases hf : findPublic (env.dns (hostname u)) with
  | none => rw [hf] at h; cases h
  | some b => rfl

theorem loopNext_inr_guard (env : Env) (base u : JsUrl) (count : Nat) (nu : JsUrl)
    (h : loopNext env base u count = Sum.inr nu) : guardOkB env nu = true := by
  unfold loopNext at h
  by_cases h3 : is3xx (env.fetch (href u)) = true
  · simp only [h3, if_true] at h
    cases hloc : (env.fetch (href u)).location with
    | none => simp [hloc] at h
    | some loc =>
      simp only [hloc] at h
      cases hres : resolveURL loc base with
      | none => simp [hres] at h
      | some nu2 =>
        simp only [hres] at h
        cases hg : resolveRedirect env nu2 with
        | error e => simp [hg] at h
        | ok a =>
          simp only [hg] at h
          by_cases hc : count + 1 > 5
          · simp [hc] at h
          · simp only [if_neg hc] at h
            cases h
            exact resolveRedirect_ok_guard env nu a hg
  · simp only [Bool.not_eq_true] at h3
    simp [h3] at h
    by_cases hc : count + 1 > 5 <;> simp [hc] at h

theorem loopNext_inr_count (env : Env) (base u : JsUrl) (count : Nat) (nu : JsUrl)
    (h : loopNext env base u count = Sum.inr nu) : count + 1 ≤ 5 := by
  unfold loopNext at h
  by_cases hc : count + 1 > 5
  · by_cases h3 : is3xx (env.fetch (href u)) = true
    · simp only [h3, if_true] at h
      cases hloc : (env.fetch (href u)).location with
      | none => simp [hloc] at h
      | some loc =>
        simp only [hloc] at h
        cases hres : resolveURL loc base with
        | none => simp [hres] at h
        | some nu2 =>
          simp only [hres] at h
          cases hg : resolveRedirect env nu2 with
          | error e => simp [hg] at h
          | ok a => simp [hg, hc] at h
    · simp only [Bool.not_eq_true] at h3
      simp [h3, hc] at h
  · omega

theorem loopServer_guard (env : Env) (base : JsUrl) :
    ∀ (fuel : Nat) (u : JsUrl) (count : Nat),
      guardOkB env u = true →
      ∀ w ∈ (loopServer env base fuel u count).fetched, guardOkB env w = true := by
  intro fuel
  induction fuel with
  | zero => intro u c hu w hw; simp [loopServer] at hw
  | succ f ih =>
    intro u c hu w hw
    unfold loopServer at hw
    cases hn : loopNext env base u c with
    | inl o => rw [hn] at hw; simp at hw; exact hw ▸ hu
    | inr nu =>
      rw [hn] at hw
      simp only [List.mem_cons] at hw
      cases hw with
      | inl he => exact he ▸ hu
      | inr hm => exact ih nu (c + 1) (loopNext_inr_guard env base u c nu hn) w hm

theorem loopServer_len (env : Env) (base : JsUrl) :
    ∀ (fuel : Nat) (u : JsUrl) (count : Nat), count ≤ 5 →
      ((loopServer env base fuel u count).fetched).length ≤ 6 - count := by
  intro fuel
  induction fuel with
  | zero => intro u c hc; simp [loopServer]
  | succ f ih =>
    intro u c hc
    unfold loopServer
    cases hn : loopNext env base u c with
    | inl o => simp; omega
    | inr nu =>
      have hcnt := loopNext_inr_count env base u c nu hn
      simp only [List.length_cons]
      have := ih nu (c + 1) (by omega)
      omega

theorem loopServer_follows (env : Env) (base : JsUrl) :
    ∀ (hops : List JsUrl) (u : JsUrl) (count fuel : Nat),
      count + hops.length ≤ 4 → hops.length < fuel →
      followsChainB env base u hops = true →
      loopServer env base fuel u count =
        ⟨Except.ok (env.fetch (href (lastD u hops))), u :: hops⟩ := by
  intro hops
  induction hops with
  | nil =>
    intro u c fuel hc hf hch
    cases fuel with
    | zero => omega
    | succ f =>
      unfold followsChainB at hch
      unfold loopServer
      have hn : loopNext env base u c = Sum.inl (Except.ok (env.fetch (href u))) := by
        unfold loopNext
        simp only [Bool.not_eq_true'] at hch
        simp [hch]
        omega
      rw [hn]
      rfl
  | cons v rest ih =>
    intro u c fuel hc hf hch
    cases fuel with
    | zero => simp at hf
    | succ f =>
      unfold followsChainB at hch
      simp only [Bool.and_eq_true] at hch
      obtain ⟨hstep, hrest⟩ := hch
      unfold chainStepB at hstep
      simp only [Bool.and_eq_true] at hstep
      obtain ⟨h3, hloc⟩ := hstep
      cases hl : (env.fetch (href u)).location with
      | none => rw [hl] at hloc; simp at hloc
      | some loc =>
        rw [hl] at hloc
        simp only [Bool.and_eq_true, decide_eq_true_eq] at hloc
        obtain ⟨hres, hg⟩ := hloc
        have hn : loopNext env base u c = Sum.inr v := by
          unfold loopNext
          simp only [h3, if_true, hl, hres]
          cases hfp : findPublic (env.dns (hostname v)) with
          | none => unfold guardOkB at hg; rw [hfp] at hg; simp at hg
          | some a =>
            unfold resolveRedirect
            rw [hfp]
            simp only [List.length_cons] at hc
            have hcle : ¬ (c + 1 > 5) := by omega
            simp [hcle]
        unfold loopServer
        rw [hn]
        show (⟨(loopServer env base f v (c + 1)).outcome,
               u :: (loopServer env base f v (c + 1)).fetched⟩ : LoopOut) = _
        simp only [List.length_cons] at hc
        rw [ih v (c + 1) f (by omega) (by simp at hf; omega) hrest]
        rfl

theorem handleProxy_fetched (env : Env) (st : Store) (sid : Str) (target : Option Str) :
    (handleProxy env st sid target).fetched = [] ∨
    ∃ url, guardOkB env url = true ∧
      (handleProxy env st sid target).fetched = (loopServer env url 7 url 0).fetched := by
  cases hv : validateTarget target with
  | error e => left; simp [handleProxy, hv]
  | ok url =>
    cases hr : resolveRedirect env url with
    | error e => left; simp [handleProxy, hv, hr]
    | ok a =>
      right
      refine ⟨url, resolveRedirect_ok_guard env url a hr, ?_⟩
      cases hlo : loopServer env url 7 url 0 with
      | mk o fs =>
        cases o with
        | error e => simp [handleProxy, hv, hr, hlo]
        | ok r =>
          by_cases hc : r.setCookies.isEmpty
          · simp [handleProxy, hv, hr, hlo, hc]
          · simp [handleProxy, hv, hr, hlo, hc]

/-! ## Claim C1 -/

/-- Claim C1 counterexample.  The claim states that the forwarding engine
resolves each Location against the current target.  In src/server.js the
loop computes `new URL(location, url)` where url is the original
validated target: on the chain a.example/start → b.example/dir/page →
Location x, the loop fetches a.example/x, while resolution against the
current target b.example/dir/page yields b.example/dir/x, a different
URL. -/
theorem c1_counterexample :
    (loopServer envC1 uA0 7 uA0 0).fetched = [uA0, uB1, uAx]
    ∧ resolveURL (chars "x") uB1 = some uBdx
    ∧ uAx ≠ uBdx := by decide

/-- Claim C1, amended: the loop resolves each Location against the
original validated target and re-runs the Address Guard (resolveRedirect)
on the result before the next fetch; consequently, for any host all of
whose resolved addresses are blocked, no request of the whole /proxy
handling is ever sent to a URL on that host. -/
theorem c1_amended_no_fetch_of_blocked_host (env : Env) (st : Store) (sid : Str)
    (target : Option Str) (h : Str)
    (hb : ∀ a ∈ env.dns h, isBlockedIP a = true) :
    ∀ u ∈ (handleProxy env st sid target).fetched, hostname u ≠ h := by
  intro u hu hcontra
  have hfp : findPublic (env.dns h) = none := by
    unfold findPublic
    rw [List.find?_eq_none]
    intro a ha
    simp [hb a ha]
  rcases handleProxy_fetched env st sid target with hf | ⟨url, hg, hf⟩
  · rw [hf] at hu; exact absurd hu (List.not_mem_nil u)
  · rw [hf] at hu
    have hgu := loopServer_guard env url 7 url 0 hg u hu
    unfold guardOkB at hgu
    rw [hcontra, hfp] at hgu
    simp at hgu

/-- Claim C1 witness: a public target redirecting to internal.local, whose
only address 10.0.0.5 is blocked; no fetched URL is on internal.local. -/
theorem c1_witness :
    (∀ a ∈ envW.dns (chars "internal.local"), isBlockedIP a = true)
    ∧ (∀ u ∈ (handleProxy envW [] (chars "ab")
          (some (chars "https://a.example/"))).fetched,
        hostname u ≠ chars "internal.local") :=
  ⟨by decide,
   c1_amended_no_fetch_of_blocked_host envW [] (chars "ab")
     (some (chars "https://a.example/")) (chars "internal.local") (by decide)⟩

/-! ## Claim C2 -/

/-- Claim C2: resolveRedirect fails exactly when every resolved address is
blocked (also when resolution yields no address); with the target still
unfetched, an all-blocked initial host makes the whole request fail with
the Blocked IP error before any upstream fetch; and a host with at least
one public address always passes the guard. -/
theorem c2_blocked_iff_all_blocked (addrs : List Str) (env : Env) (st : Store)
    (sid raw : Str) (url : JsUrl) :
    (findPublic addrs = none ↔ ∀ a ∈ addrs, isBlockedIP a = true)
    ∧ (validateTarget (some raw) = Except.ok url →
        findPublic (env.dns (hostname url)) = none →
        (handleProxy env st sid (some raw)).outcome = Except.error Err.blockedIP
        ∧ (handleProxy env st sid (some raw)).fetched = [])
    ∧ ((∃ a ∈ env.dns (hostname url), isBlockedIP a = false) →
        ∃ ip, resolveRedirect env url = Except.ok ip) := by
  refine ⟨?_, ?_, ?_⟩
  · unfold findPublic
    rw [List.find?_eq_none]
    constructor
    · intro h a ha
      have := h a ha
      simpa using this
    · intro h a ha
      simp [h a ha]
  · intro hval hfp
    have hrr : resolveRedirect env url = Except.error Err.blockedIP := by
      unfold resolveRedirect
      rw [hfp]
    simp [handleProxy, hval, hrr]
  · rintro ⟨a, ha, hab⟩
    have hsome : (findPublic (env.dns (hostname url))).isSome = true := by
      unfold findPublic
      rw [List.find?_isSome]
      exact ⟨a, ha, by simp [hab]⟩
    cases hf : findPublic (env.dns (hostname url)) with
    | none => rw [hf] at hsome; simp at hsome
    | some ip =>
      refine ⟨ip, ?_⟩
      unfold resolveRedirect
      rw [hf]

/-- Claim C2 witness: a loopback plus private answer list blocks; the
all-blocked host internal.test fails with no fetch; pub.test passes. -/
theorem c2_witness :
    findPublic [chars "127.0.0.1", chars "10.0.0.5"] = none
    ∧ (handleProxy envB [] (chars "ab") (some (chars "http://internal.test/"))).outcome
        = Except.error Err.blockedIP
    ∧ (handleProxy envB [] (chars "ab") (some (chars "http://internal.test/"))).fetched = []
    ∧ (∃ ip, resolveRedirect envB uPub = Except.ok ip) := by
  refine ⟨?_, ?_, ?_, ?_⟩
  · exact (c2_blocked_iff_all_blocked [chars "127.0.0.1", chars "10.0.0.5"]
      envB [] (chars "ab") (chars "x") uPub).1.mpr (by decide)
  · exact ((c2_blocked_iff_all_blocked [] envB [] (chars "ab")
      (chars "http://internal.test/") uInternal).2.1 (by decide) (by decide)).1
  · exact ((c2_blocked_iff_all_blocked [] envB [] (chars "ab")
      (chars "http://internal.test/") uInternal).2.1 (by decide) (by decide)).2
  · exact (c2_blocked_iff_all_blocked [] envB [] (chars "ab")
      (chars "x") uPub).2.2 ⟨chars "8.8.8.8", by decide, by decide⟩

/-! ## Claim C3 -/

/-- Claim C3: the classifier fails closed: whenever the address parser
fails, isBlockedIP is true (isPrivateIPv6 returns true from its catch
branch, and it is a disjunct of isBlockedIP). -/
theorem c3_parse_failure_blocked (s : Str) (h : ipaddrParse s = none) :
    isBlockedIP s = true := by
  unfold isBlockedIP isPrivateIPv6
  rw [h]
  simp

/-- Claim C3 witness at a concrete unparseable address string. -/
theorem c3_witness :
    ipaddrParse (chars "not-an-ip") = none
    ∧ isBlockedIP (chars "not-an-ip") = true :=
  ⟨by decide, c3_parse_failure_blocked (chars "not-an-ip") (by decide)⟩

/-! ## Claim C4 -/

/-- Claim C4 counterexample.  The claim states that every chain of length
at most 5 with public hops is followed to its terminal response.  In
src/server.js redirectCount is incremented on the terminal iteration as
well, so a chain of exactly five public redirects ending in a 200 response
aborts with the Too many redirects error instead of returning it. -/
theorem c4_counterexample :
    (loopServer envC4 (aU "/s0") 7 (aU "/s0") 0).outcome
      = Except.error Err.tooManyRedirects
    ∧ followsChainB envC4 (aU "/s0") (aU "/s0")
        [aU "/s1", aU "/s2", aU "/s3", aU "/s4", aU "/s5"] = true
    ∧ ([aU "/s1", aU "/s2", aU "/s3", aU "/s4", aU "/s5"] : List JsUrl).length = 5 := by
  decide

/-- Claim C4, amended: the handler issues at most six upstream requests
(the initial fetch plus five redirects), and every redirect chain of at
most four hops whose steps are 3xx responses with guard-passing resolved
Locations and whose last response is terminal is followed to that terminal
response, fetching exactly the chain. -/
theorem c4_amended_redirect_bound (env : Env) (base : JsUrl) (st : Store) (sid : Str)
    (target : Option Str) (hops : List JsUrl) :
    ((handleProxy env st sid target).fetched.length ≤ 6)
    ∧ (hops.length ≤ 4 → followsChainB env base base hops = true →
        loopServer env base 7 base 0 =
          ⟨Except.ok (env.fetch (href (lastD base hops))), base :: hops⟩) := by
  constructor
  · rcases handleProxy_fetched env st sid target with hf | ⟨url, _, hf⟩
    · rw [hf]; simp
    · rw [hf]
      have := loopServer_len env url 7 url 0 (by omega)
      omega
  · intro hlen hch
    exact loopServer_follows env base hops base 0 7 (by omega) (by omega) hch

/-- Claim C4 witness: a two-hop public chain s3 → s4 → s5 ending in 200 is
followed to the terminal response, and a concrete handler run makes at
most six requests. -/
theorem c4_witness :
    loopServer envC4 (aU "/s3") 7 (aU "/s3") 0 =
      ⟨Except.ok resp200, [aU "/s3", aU "/s4", aU "/s5"]⟩
    ∧ (handleProxy envC4 [] (chars "ab")
        (some (chars "https://a.example/s3"))).fetched.length ≤ 6 := by
  constructor
  · have h := (c4_amended_redirect_bound envC4 (aU "/s3") [] (chars "ab") none
      [aU "/s4", aU "/s5"]).2 (by decide) (by decide)
    exact h.trans (by decide)
  · exact (c4_amended_redirect_bound envC4 (aU "/s3") [] (chars "ab")
      (some (chars "https://a.example/s3")) []).1

/-! ## Scanner lemmas for the rewriting claims -/

theorem spanUntilQuote_append (v r : Str) (hv : noQuote v = true) :
    spanUntilQuote (v ++ '"' :: r) = some (v, r) := by
  induction v with
  | nil => simp [spanUntilQuote]
  | cons c cs ih =>
    unfold noQuote at hv
    simp only [Bool.and_eq_true, Bool.not_eq_true'] at hv
    obtain ⟨hc, hcs⟩ := hv
    simp only [List.cons_append, spanUntilQuote]
    rw [if_neg (by simpa using hc)]
    simp only [List.append_eq]
    rw [ih hcs]
    rfl

theorem matchAt_occ_href (v : Str) (hv : noQuote v = true) :
    matchAt attrsP0 (attrOcc (chars "href") v) = some (chars "href", v, []) := by
  have hs := spanUntilQuote_append v [] hv
  simp +decide [attrsP0, attrOcc, chars, matchAt, matchOne, stripCI, lcCh] at hs ⊢
  simp [hs]

theorem matchAt_occ_src (v : Str) (hv : noQuote v = true) :
    matchAt attrsP0 (attrOcc (chars "src") v) = some (chars "src", v, []) := by
  have hs := spanUntilQuote_append v [] hv
  simp +decide [attrsP0, attrOcc, chars, matchAt, matchOne, stripCI, lcCh] at hs ⊢
  simp [hs]

theorem matchAt_occ_action (v : Str) (hv : noQuote v = true) :
    matchAt attrsP0 (attrOcc (chars "action") v) = some (chars "action", v, []) := by
  have hs := spanUntilQuote_append v [] hv
  simp +decide [attrsP0, attrOcc, chars, matchAt, matchOne, stripCI, lcCh] at hs ⊢
  simp [hs]

theorem matchAt_occ_dsrc (v : Str) (hv : noQuote v = true) :
    matchAt attrsP0 (attrOcc (chars "data-src") v) = some (chars "data-src", v, []) := by
  have hs := spanUntilQuote_append v [] hv
  simp +decide [attrsP0, attrOcc, chars, matchAt, matchOne, stripCI, lcCh] at hs ⊢
  simp [hs]

theorem matchAt_occ_dorig (v : Str) (hv : noQuote v = true) :
    matchAt attrsP0 (attrOcc (chars "data-original") v) =
      some (chars "data-original", v, []) := by
  have hs := spanUntilQuote_append v [] hv
  simp +decide [attrsP0, attrOcc, chars, matchAt, matchOne, stripCI, lcCh] at hs ⊢
  simp [hs]

theorem matchAt_srv_occ_href (v : Str) (hv : noQuote v = true) :
    matchAt attrsServer (attrOcc (chars "href") v) = some (chars "href", v, []) := by
  have hs := spanUntilQuote_append v [] hv
  simp +decide [attrsServer, attrOcc, chars, matchAt, matchOne, stripCI, lcCh] at hs ⊢
  simp [hs]

theorem matchAt_srv_occ_src (v : Str) (hv : noQuote v = true) :
    matchAt attrsServer (attrOcc (chars "src") v) = some (chars "src", v, []) := by
  have hs := spanUntilQuote_append v [] hv
  simp +decide [attrsServer, attrOcc, chars, matchAt, matchOne, stripCI, lcCh] at hs ⊢
  simp [hs]

theorem matchAt_srv_occ_action (v : Str) (hv : noQuote v = true) :
    matchAt attrsServer (attrOcc (chars "action") v) = some (chars "action", v, []) := by
  have hs := spanUntilQuote_append v [] hv
  simp +decide [attrsServer, attrOcc, chars, matchAt, matchOne, stripCI, lcCh] at hs ⊢
  simp [hs]

theorem matchOne_nil (a : Str) : matchOne a [] = none := by
  cases a <;> rfl

theorem matchAt_nil : ∀ attrs : List Str, matchAt attrs [] = none := by
  intro attrs
  induction attrs with
  | nil => rfl
  | cons a rest ih => simp [matchAt, matchOne_nil, ih]

theorem rewriteCore_nil (attrs : List Str) (repl : Str → Str → Str) (fuel : Nat) :
    rewriteCore attrs repl fuel [] = [] := by
  cases fuel <;> rfl

theorem rewriteCore_occ (attrs : List Str) (repl : Str → Str → Str) (a v : Str)
    (h : matchAt attrs (attrOcc a v) = some (a, v, [])) :
    rewriteCore attrs repl (attrOcc a v).length (attrOcc a v) = repl a v := by
  cases hocc : attrOcc a v with
  | nil =>
    rw [hocc, matchAt_nil] at h
    cases h
  | cons c cs =>
    rw [hocc] at h
    simp only [List.length_cons, rewriteCore, h]
    simp

theorem stripCI_noQuote : ∀ (a s t r : Str),
    stripCI a s = some (t, r) → noQuote s = true → noQuote r = true := by
  intro a
  induction a with
  | nil =>
    intro s t r h hs
    have h2 : (some ([], s) : Option (Str × Str)) = some (t, r) := h
    simp only [Option.some.injEq, Prod.mk.injEq] at h2
    exact h2.2 ▸ hs
  | cons p ps ih =>
    intro s t r h hs
    cases s with
    | nil => simp [stripCI] at h
    | cons c cs =>
      simp only [stripCI] at h
      by_cases hcp : lcCh c = p
      · rw [if_pos hcp] at h
        cases hsc : stripCI ps cs with
        | none => rw [hsc] at h; simp at h
        | some pr =>
          rw [hsc] at h
          simp only [Option.map_some'] at h
          have h2 := Option.some.inj h
          have hr : r = pr.2 := (congrArg Prod.snd h2).symm
          unfold noQuote at hs
          simp only [Bool.and_eq_true] at hs
          exact hr ▸ ih cs pr.1 pr.2 (by rw [hsc]) hs.2
      · rw [if_neg hcp] at h; simp at h

theorem noQuote_cons (c : Char) (cs : Str) (h : noQuote (c :: cs) = true) :
    decide (c = '"') = false ∧ noQuote cs = true := by
  unfold noQuote at h
  simp only [Bool.and_eq_true, Bool.not_eq_true'] at h
  exact h

theorem matchOne_none_of_noQuote (a s : Str) (hs : noQuote s = true) :
    matchOne a s = none := by
  unfold matchOne
  split
  · rfl
  · next txt r1 heq =>
    have hr1 : noQuote r1 = true := stripCI_noQuote a s txt r1 heq hs
    split
    · exfalso
      have h1 := (noQuote_cons _ _ hr1).2
      have h2 := (noQuote_cons _ _ h1).1
      simp at h2
    · rfl

theorem matchAt_none_of_noQuote : ∀ (attrs : List Str) (s : Str),
    noQuote s = true → matchAt attrs s = none := by
  intro attrs
  induction attrs with
  | nil => intro s hs; rfl
  | cons a rest ih =>
    intro s hs
    simp only [matchAt, matchOne_none_of_noQuote a s hs]
    exact ih s hs

theorem rewriteCore_noQuote (attrs : List Str) (repl : Str → Str → Str) :
    ∀ (fuel : Nat) (s : Str), noQuote s = true → s.length ≤ fuel →
      rewriteCore attrs repl fuel s = s := by
  intro fuel
  induction fuel with
  | zero =>
    intro s hs hl
    cases s with
    | nil => rfl
    | cons c cs => simp at hl
  | succ f ih =>
    intro s hs hl
    cases s with
    | nil => rfl
    | cons c cs =>
      simp only [rewriteCore, matchAt_none_of_noQuote attrs (c :: cs) hs]
      rw [ih cs (noQuote_cons c cs hs).2 (by simpa using Nat.le_of_succ_le_succ hl)]

/-! ## Claim C5 -/

/-- Claim C5 failing run.  Under session ab the first request targets
a.example, which redirects to c.example; only the c.example response sets
the cookie id=1 (first two conjuncts).  The handler records that cookie in
the jar keyed ab:a.example with host-only domain a.example (third
conjunct), and a second request to a.example under the same session
attaches the cookie header id=1 while its redirect hops include a fetch of
c.example carrying those very headers (last two conjuncts): a cookie set
by c.example is replayed to a.example, violating the isolation claim. -/
theorem c5_cookie_leak_demo :
    (envC5.fetch (chars "https://a.example/")).setCookies = []
    ∧ (envC5.fetch (chars "https://c.example/")).setCookies =
        [⟨chars "id", chars "1", none⟩]
    ∧ storeGet (handleProxy envC5 [] (chars "ab")
          (some (chars "https://a.example/"))).finalStore (chars "ab:a.example")
        = some [⟨chars "id", chars "1", chars "a.example", true⟩]
    ∧ (handleProxy envC5
          (handleProxy envC5 [] (chars "ab") (some (chars "https://a.example/"))).finalStore
          (chars "ab") (some (chars "https://a.example/"))).sentCookie
        = some (chars "id=1")
    ∧ chars "c.example" ∈
        ((handleProxy envC5
          (handleProxy envC5 [] (chars "ab") (some (chars "https://a.example/"))).finalStore
          (chars "ab") (some (chars "https://a.example/"))).fetched.map hostname) := by
  decide

/-! ## Claim C6 -/

/-- Claim C6 counterexample.  The claim states that the rewriter skips
fragment-only (and javascript:/data:) values and covers data-original.
The src/server.js rewriter resolves and rewrites the fragment-only value
x (first two conjuncts) and leaves a data-original attribute untouched
(third conjunct). -/
theorem c6_counterexample :
    rewriteAttrsServer baseE (chars "href=\"#x\"") =
      chars "href=\"/proxy?url=https%3A%2F%2Fe.com%2Fp%23x\""
    ∧ rewriteAttrsServer baseE (chars "href=\"#x\"") ≠ chars "href=\"#x\""
    ∧ rewriteAttrsServer baseE (chars "data-original=\"/a\"") =
        chars "data-original=\"/a\"" := by
  decide

/-- Claim C6, amended: the part_000 variant rewriter behaves as the claim
says on its five attributes (conjunct one: the occurrence is replaced by a
/proxy link on the resolved absolute URL and left unmodified whenever
resolveUrl yields null, and conjunct two: javascript:, data: and
fragment-only values always yield null, hence are skipped); the
src/server.js rewriter also leaves a value unmodified when URL resolution
fails, but only handles href, src and action (conjunct three). -/
theorem c6_amended_rewrite (base : JsUrl) (a v : Str) (ha : a ∈ attrsP0)
    (hv : noQuote v = true) :
    (rewriteAttrsP0 base (attrOcc a v) =
      match resolveUrlP0 v base with
      | some abs => a ++ chars "=\"/proxy?url=" ++ encodeURIComponent abs ++ ['"']
      | none => attrOcc a v)
    ∧ ((strStarts (chars "javascript:") v || strStarts (chars "data:") v ||
          strStarts (chars "#") v) = true → resolveUrlP0 v base = none)
    ∧ (a ∈ attrsServer → resolveURL v base = none →
          rewriteAttrsServer base (attrOcc a v) = attrOcc a v) := by
  refine ⟨?_, ?_, ?_⟩
  · have hm : matchAt attrsP0 (attrOcc a v) = some (a, v, []) := by
      simp only [attrsP0, List.mem_cons, List.not_mem_nil, or_false] at ha
      rcases ha with rfl | rfl | rfl | rfl | rfl
      · exact matchAt_occ_href v hv
      · exact matchAt_occ_src v hv
      · exact matchAt_occ_action v hv
      · exact matchAt_occ_dsrc v hv
      · exact matchAt_occ_dorig v hv
    have hr := rewriteCore_occ attrsP0 (replP0 base) a v hm
    unfold rewriteAttrsP0
    rw [hr]
    unfold replP0
    cases hres : resolveUrlP0 v base with
    | some abs => rfl
    | none => rfl
  · intro hpre
    unfold resolveUrlP0
    by_cases he : v = []
    · simp [he]
    · simp [he, hpre]
  · intro has hres
    have hm : matchAt attrsServer (attrOcc a v) = some (a, v, []) := by
      simp only [attrsServer, List.mem_cons, List.not_mem_nil, or_false] at has
      rcases has with rfl | rfl | rfl
      · exact matchAt_srv_occ_href v hv
      · exact matchAt_srv_occ_src v hv
      · exact matchAt_srv_occ_action v hv
    have hr := rewriteCore_occ attrsServer (replServer base) a v hm
    unfold rewriteAttrsServer
    rw [hr]
    unfold replServer
    rw [hres]
    rfl

/-- Claim C6 witness: a fragment value is skipped by the part_000
rewriter, a value the URL library rejects is kept by the src/server.js
rewriter, and a path value is rewritten into a /proxy link. -/
theorem c6_witness :
    rewriteAttrsP0 baseE (attrOcc (chars "href") (chars "#frag")) =
        attrOcc (chars "href") (chars "#frag")
    ∧ rewriteAttrsServer baseE (attrOcc (chars "src") (chars "http://")) =
        attrOcc (chars "src") (chars "http://")
    ∧ rewriteAttrsP0 baseE (attrOcc (chars "src") (chars "/a")) =
        chars "src=\"/proxy?url=https%3A%2F%2Fe.com%2Fa\"" := by
  refine ⟨?_, ?_, ?_⟩
  · exact ((c6_amended_rewrite baseE (chars "href") (chars "#frag")
      (by decide) (by decide)).1).trans (by decide)
  · exact (c6_amended_rewrite baseE (chars "src") (chars "http://")
      (by decide) (by decide)).2.2 (by decide) (by decide)
  · exact ((c6_amended_rewrite baseE (chars "src") (chars "/a")
      (by decide) (by decide)).1).trans (by decide)

/-! ## Claim C7 -/

/-- Claim C7 counterexample.  The claim states that x-frame-options and
content-encoding never appear in the client response.  The src/server.js
pass-through filter forwards both, and the part_000 block list forwards
x-frame-options as well. -/
theorem c7_counterexample :
    (chars "x-frame-options", chars "DENY") ∈
        copyHeadersServer [(chars "x-frame-options", chars "DENY")]
    ∧ (chars "content-encoding", chars "gzip") ∈
        copyHeadersServer [(chars "content-encoding", chars "gzip")]
    ∧ (chars "x-frame-options", chars "DENY") ∈
        copyHeadersP0 [(chars "x-frame-options", chars "DENY")] := by
  decide

/-- Claim C7, amended: on the pass-through path src/server.js strips
exactly content-security-policy (case-insensitively) and forwards every
other header; the part_000 variant strips exactly its five-entry block
list (the two CSP variants and the three cross-origin policies), and
neither strips x-frame-options or content-encoding there. -/
theorem c7_amended_header_filter (hs : List (Str × Str)) (k v : Str) :
    ((k, v) ∈ copyHeadersServer hs ↔
      (k, v) ∈ hs ∧ lowerStr k ≠ chars "content-security-policy")
    ∧ ((k, v) ∈ copyHeadersP0 hs ↔ (k, v) ∈ hs ∧ lowerStr k ∉ blockHeadersP0) := by
  constructor
  · simp [copyHeadersServer, List.mem_filter]
  · simp [copyHeadersP0, List.mem_filter]

/-- Claim C7 witness: with a CSP header and a server header upstream, the
server header is forwarded and the CSP header is not. -/
theorem c7_witness :
    (chars "server", chars "nginx") ∈ copyHeadersServer
        [(chars "content-security-policy", chars "x"), (chars "server", chars "nginx")]
    ∧ (chars "content-security-policy", chars "x") ∉ copyHeadersServer
        [(chars "content-security-policy", chars "x"), (chars "server", chars "nginx")] := by
  constructor
  · exact (c7_amended_header_filter
      [(chars "content-security-policy", chars "x"), (chars "server", chars "nginx")]
      (chars "server") (chars "nginx")).1.mpr ⟨by decide, by decide⟩
  · intro hmem
    have h2 := ((c7_amended_header_filter
      [(chars "content-security-policy", chars "x"), (chars "server", chars "nginx")]
      (chars "content-security-policy") (chars "x")).1.mp hmem).2
    exact h2 (by decide)

/-! ## Claim C8 -/

/-- Claim C8 counterexample.  The claim states that a missing target, an
unparseable target, and a blocked scheme are answered with a 4xx-class
response.  The handler catch-all answers all three with status 500 and
the body fetch error, and 500 is not in the 4xx class. -/
theorem c8_counterexample :
    clientErrorResp (handleProxy envEmpty [] (chars "ab") none).outcome
        = some (500, chars "fetch error")
    ∧ clientErrorResp (handleProxy envEmpty [] (chars "ab")
        (some (chars "nourl"))).outcome = some (500, chars "fetch error")
    ∧ clientErrorResp (handleProxy envEmpty [] (chars "ab")
        (some (chars "javascript:alert(1)"))).outcome = some (500, chars "fetch error")
    ∧ ¬(400 ≤ 500 ∧ 500 < 500) := by
  decide

/-- Claim C8, amended: a request whose target fails validation (missing or
empty, blocked scheme, or unparseable) propagates that error, performs no
upstream fetch, and is answered synchronously with the single status 500
fetch error response; no retry exists in the control flow. -/
theorem c8_amended_error_response (env : Env) (st : Store) (sid : Str)
    (t : Option Str) (e : Err) (h : validateTarget t = Except.error e) :
    (handleProxy env st sid t).outcome = Except.error e
    ∧ (handleProxy env st sid t).fetched = []
    ∧ clientErrorResp (handleProxy env st sid t).outcome
        = some (500, chars "fetch error") := by
  refine ⟨?_, ?_, ?_⟩ <;> simp [handleProxy, h, clientErrorResp]

/-- Claim C8 witness at the missing-target input. -/
theorem c8_witness :
    (handleProxy envEmpty [] (chars "ab") none).outcome = Except.error Err.invalidURL
    ∧ (handleProxy envEmpty [] (chars "ab") none).fetched = []
    ∧ clientErrorResp (handleProxy envEmpty [] (chars "ab") none).outcome
        = some (500, chars "fetch error") :=
  c8_amended_error_response envEmpty [] (chars "ab") none Err.invalidURL (by decide)

theorem sentUpFrames_append (as bs : List WsAction) :
    sentUpFrames (as ++ bs) = sentUpFrames as ++ sentUpFrames bs := by
  simp [sentUpFrames, List.filterMap_append]

theorem sentClientFrames_append (as bs : List WsAction) :
    sentClientFrames (as ++ bs) = sentClientFrames as ++ sentClientFrames bs := by
  simp [sentClientFrames, List.filterMap_append]

theorem wsServer_sentUp (evs : List WsEvent) :
    sentUpFrames (wsRun wsActionsServer evs) = [] := by
  induction evs with
  | nil => rfl
  | cons e rest ih =>
    have h1 : wsRun wsActionsServer (e :: rest) =
        wsActionsServer e ++ wsRun wsActionsServer rest := rfl
    rw [h1, sentUpFrames_append, ih]
    cases e <;> simp [sentUpFrames, wsActionsServer]

theorem wsServer_sentClient (evs : List WsEvent) :
    sentClientFrames (wsRun wsActionsServer evs) = upMsgPayloads evs := by
  induction evs with
  | nil => rfl
  | cons e rest ih =>
    have h1 : wsRun wsActionsServer (e :: rest) =
        wsActionsServer e ++ wsRun wsActionsServer rest := rfl
    rw [h1, sentClientFrames_append, ih]
    cases e <;> simp [sentClientFrames, wsActionsServer, upMsgPayloads, List.filterMap_cons]

theorem wsP3_sentUp (evs : List WsEvent) :
    sentUpFrames (wsRun wsActionsP3 evs) = clientMsgPayloads evs := by
  induction evs with
  | nil => rfl
  | cons e rest ih =>
    have h1 : wsRun wsActionsP3 (e :: rest) =
        wsActionsP3 e ++ wsRun wsActionsP3 rest := rfl
    rw [h1, sentUpFrames_append, ih]
    cases e <;> simp [sentUpFrames, wsActionsP3, clientMsgPayloads, List.filterMap_cons]

theorem wsP3_sentClient (evs : List WsEvent) :
    sentClientFrames (wsRun wsActionsP3 evs) = upMsgPayloads evs := by
  induction evs with
  | nil => rfl
  | cons e rest ih =>
    have h1 : wsRun wsActionsP3 (e :: rest) =
        wsActionsP3 e ++ wsRun wsActionsP3 rest := rfl
    rw [h1, sentClientFrames_append, ih]
    cases e <;> simp [sentClientFrames, wsActionsP3, upMsgPayloads, List.filterMap_cons]

/-! ## Claim C9 -/

/-- Claim C9 counterexample.  The claim states that frames are relayed in
both directions and that a close on either side closes the other with a
matching code.  In src/server.js a client message triggers no action (no
handler is installed), an upstream close triggers no action either, and in
the part_003 variant an upstream close with code 4001 closes the client
without any code rather than with 4001. -/
theorem c9_counterexample :
    wsActionsServer (WsEvent.clientMsg (chars "hi")) = []
    ∧ wsActionsServer (WsEvent.upClose 4001) = []
    ∧ wsActionsP3 (WsEvent.upClose 4001) = [WsAction.closeClient none]
    ∧ WsAction.closeClient (some 4001) ∉ wsActionsP3 (WsEvent.upClose 4001) := by
  decide

/-- Claim C9, amended: over any event sequence, the src/server.js relay
forwards no client frame upstream and forwards exactly the upstream
message payloads to the client, untransformed and in order; the part_003
variant forwards exactly the payloads in both directions. -/
theorem c9_amended_relay (evs : List WsEvent) :
    sentUpFrames (wsRun wsActionsServer evs) = []
    ∧ sentClientFrames (wsRun wsActionsServer evs) = upMsgPayloads evs
    ∧ sentUpFrames (wsRun wsActionsP3 evs) = clientMsgPayloads evs
    ∧ sentClientFrames (wsRun wsActionsP3 evs) = upMsgPayloads evs :=
  ⟨wsServer_sentUp evs, wsServer_sentClient evs, wsP3_sentUp evs, wsP3_sentClient evs⟩

/-! ## Claim C10 -/

/-- Claim C10 counterexample.  The claim states that single-quoted
attribute values pass through byte for byte.  The input is a single-quoted
href attribute whose value contains the double-quoted pattern src="v";
the src/server.js rewriter rewrites inside it. -/
theorem c10_counterexample : rewriteAttrsServer baseE c10input ≠ c10input := by
  decide

/-- Claim C10, amended: any input containing no double-quote character is
passed through unchanged by the src/server.js rewriter; in particular
single-quoted and unquoted attributes whose values contain no double
quote are byte-for-byte preserved (the rewriter transforms only
double-quoted values), while a single-quoted value embedding a
double-quoted attribute pattern is rewritten inside. -/
theorem c10_amended_no_quote_preserved (base : JsUrl) (s : Str)
    (h : noQuote s = true) : rewriteAttrsServer base s = s := by
  unfold rewriteAttrsServer
  exact rewriteCore_noQuote attrsServer (replServer base) s.length s h le_rfl

/-- Claim C10 witness: a simple single-quoted href attribute is preserved
byte for byte. -/
theorem c10_witness :
    noQuote (chars "href=" ++ [sqC] ++ chars "/a" ++ [sqC]) = true
    ∧ rewriteAttrsServer baseE (chars "href=" ++ [sqC] ++ chars "/a" ++ [sqC]) =
        chars "href=" ++ [sqC] ++ chars "/a" ++ [sqC] :=
  ⟨by decide,
   c10_amended_no_quote_preserved baseE (chars "href=" ++ [sqC] ++ chars "/a" ++ [sqC])
     (by decide)⟩

/-! ## Model validation on concrete data -/

/-- The address classifier on concrete addresses drawn from the ranges the
code names. -/
theorem isBlockedIP_model_samples :
    isBlockedIP (chars "127.0.0.1") = true
    ∧ isBlockedIP (chars "10.0.0.5") = true
    ∧ isBlockedIP (chars "192.168.1.1") = true
    ∧ isBlockedIP (chars "172.16.0.1") = true
    ∧ isBlockedIP (chars "172.32.0.1") = false
    ∧ isBlockedIP (chars "169.254.169.254") = true
    ∧ isBlockedIP (chars "8.8.8.8") = false
    ∧ isBlockedIP (chars "::1") = true
    ∧ isBlockedIP (chars "fe80::1") = true
    ∧ isBlockedIP (chars "fd00::1") = true
    ∧ isBlockedIP (chars "2001:db8::1") = false := by decide

/-- The URL model on concrete inputs of each shape the proxy handles. -/
theorem urlModel_samples :
    parseAbs (chars "https://a.example/start") =
      some (JsUrl.web ⟨chars "https", chars "a.example", chars "/start", [], []⟩)
    ∧ parseAbs (chars "https://a.example") =
      some (JsUrl.web ⟨chars "https", chars "a.example", chars "/", [], []⟩)
    ∧ parseAbs (chars "javascript:alert(1)") =
      some (JsUrl.opq (chars "javascript") (chars "alert(1)"))
    ∧ parseAbs (chars "https://") = none
    ∧ parseAbs (chars "nourl") = none
    ∧ resolveURL (chars "/about")
        (JsUrl.web ⟨chars "https", chars "example.com", chars "/", [], []⟩) =
      some (JsUrl.web ⟨chars "https", chars "example.com", chars "/about", [], []⟩)
    ∧ resolveURL (chars "x")
        (JsUrl.web ⟨chars "https", chars "b.example", chars "/dir/page", [], []⟩) =
      some (JsUrl.web ⟨chars "https", chars "b.example", chars "/dir/x", [], []⟩)
    ∧ encodeURIComponent (chars "https://example.com/about") =
      chars "https%3A%2F%2Fexample.com%2Fabout" := by decide

/-- The first end-to-end scenario of the spec: a relative anchor on
example.com is rewritten into a /proxy link with the absolute target
percent-encoded. -/
theorem rewrite_scenario_sample :
    rewriteAttrsServer (JsUrl.web ⟨chars "https", chars "example.com", chars "/", [], []⟩)
      (chars "<a href=\"/about\">About</a>") =
      chars "<a href=\"/proxy?url=https%3A%2F%2Fexample.com%2Fabout\">About</a>" := by
  decide
